import Mathlib

/-!
Verification of the p5.js Rainbow Shaders repository.

The development shallowly embeds the numeric core of `src/sketch.js`
(wave scheduler, easing, cube mesh builder with face normals) and of
`src/fragment.frag` (palette smoothstep blend, GGX and specular
denominators, equirectangular direction-to-UV mapping) over the real
numbers, and proves the testable properties stated in the spec.
-/

namespace RainbowShaders

open Real

/-- A 3-component vector, as a triple of reals (GLSL vec3 / JS `[x,y,z]`). -/
abbrev V3 : Type := ℝ × ℝ × ℝ

/-- First component. -/
def V3.x (v : V3) : ℝ := v.1

/-- Second component. -/
def V3.y (v : V3) : ℝ := v.2.1

/-- Third component. -/
def V3.z (v : V3) : ℝ := v.2.2

/-- The zero vector. -/
def V3.zero : V3 := ((0 : ℝ), (0 : ℝ), (0 : ℝ))

/-- Dot product of two 3-vectors. -/
def dotV3 (a b : V3) : ℝ := a.x * b.x + a.y * b.y + a.z * b.z

/-- `easeInOutQuad` from sketch.js line 216:
`return t < 0.5 ? 2.0 * t * t : -1.0 + (4.0 - 2.0 * t) * t;` -/
noncomputable def easeInOutQuad (t : ℝ) : ℝ :=
  if t < 0.5 then 2.0 * t * t else -1.0 + (4.0 - 2.0 * t) * t

lemma easeInOutQuad_zero : easeInOutQuad 0 = 0 := by
  norm_num [easeInOutQuad]

lemma easeInOutQuad_one : easeInOutQuad 1 = 1 := by
  norm_num [easeInOutQuad]

lemma easeInOutQuad_half : easeInOutQuad 0.5 = 0.5 := by
  norm_num [easeInOutQuad]

lemma easeInOutQuad_mono {t1 t2 : ℝ} (h0 : 0 ≤ t1) (h12 : t1 ≤ t2) (h1 : t2 ≤ 1) :
    easeInOutQuad t1 ≤ easeInOutQuad t2 := by
  unfold easeInOutQuad
  rcases lt_or_le t1 0.5 with ha | ha <;> rcases lt_or_le t2 0.5 with hb | hb
  · rw [if_pos ha, if_pos hb]
    nlinarith
  · rw [if_pos ha, if_neg (not_lt.mpr hb)]
    nlinarith
  · linarith
  · rw [if_neg (not_lt.mpr ha), if_neg (not_lt.mpr hb)]
    nlinarith

lemma easeInOutQuad_nonneg {t : ℝ} (h0 : 0 ≤ t) (h1 : t ≤ 1) :
    0 ≤ easeInOutQuad t := by
  have := easeInOutQuad_mono (le_refl 0) h0 h1
  rw [easeInOutQuad_zero] at this
  exact this

lemma easeInOutQuad_le_one {t : ℝ} (h0 : 0 ≤ t) (h1 : t ≤ 1) :
    easeInOutQuad t ≤ 1 := by
  have := easeInOutQuad_mono h0 h1 (le_refl 1)
  rw [easeInOutQuad_one] at this
  exact this

/-- Per-pillar state, as created by `initPillars` (sketch.js lines 106-132). -/
structure Pillar where
  x : ℝ
  z : ℝ
  startHeightFactor : ℝ
  targetHeightFactor : ℝ
  currentHeightFactor : ℝ
  elapsedTime : ℝ
  animationDuration : ℝ

/-- `wave1` inside `updatePillars` (sketch.js line 179):
`sin((p.x * 0.5 + p.z * 0.5 + currentTime * 3.0)) * 0.5 + 0.5`. -/
noncomputable def wave1 (x z now : ℝ) : ℝ :=
  Real.sin (x * 0.5 + z * 0.5 + now * 3.0) * 0.5 + 0.5

/-- `wave2` inside `updatePillars` (sketch.js line 181):
`sin((p.x * 1.5 * freqMultiplier - p.z * 1.2 * freqMultiplier + currentTime * 8.0)) * 0.25 + 0.5`. -/
noncomputable def wave2 (x z now freqMultiplier : ℝ) : ℝ :=
  Real.sin (x * 1.5 * freqMultiplier - z * 1.2 * freqMultiplier + now * 8.0) * 0.25 + 0.5

/-- `wave3` inside `updatePillars` (sketch.js line 183):
`cos((p.z * 0.7 + currentTime * 5.0)) * (0.3 * ampMultiplier) + 0.5`. -/
noncomputable def wave3 (z now ampMultiplier : ℝ) : ℝ :=
  Real.cos (z * 0.7 + now * 5.0) * (0.3 * ampMultiplier) + 0.5

/-- `combined` inside `updatePillars` (sketch.js line 186): average of the three waves. -/
noncomputable def combinedWave (x z now freqMultiplier ampMultiplier : ℝ) : ℝ :=
  (wave1 x z now + wave2 x z now freqMultiplier + wave3 z now ampMultiplier) / 3.0

/-- The global `maxHeight` constant of sketch.js (line 11). -/
def maxHeight : ℝ := 25.0

/-- One pillar update of the `updatePillars` loop body (sketch.js lines 169-197),
with the global `maxHeight` taken as the parameter `maxH`.
Accumulates `elapsedTime`, retargets when the fraction `t` reaches 1 (new target
from the layered waves, timing reset), then applies the eased interpolation. -/
noncomputable def updatePillar (maxH dt freqMultiplier ampMultiplier now : ℝ)
    (p : Pillar) : Pillar :=
  let elapsed := p.elapsedTime + dt
  let t := elapsed / p.animationDuration
  if t ≥ 1.0 then
    let start := p.targetHeightFactor
    let combined := combinedWave p.x p.z now freqMultiplier ampMultiplier
    let target := -combined * maxH
    let easedT := easeInOutQuad 0.0
    { p with
      startHeightFactor := start
      targetHeightFactor := target
      elapsedTime := 0.0
      currentHeightFactor := start + (target - start) * easedT }
  else
    let easedT := easeInOutQuad t
    { p with
      elapsedTime := elapsed
      currentHeightFactor :=
        p.startHeightFactor + (p.targetHeightFactor - p.startHeightFactor) * easedT }

/-- `updatePillars` (sketch.js lines 166-198): the per-pillar update applied to
every pillar of the grid with the shared frame inputs. -/
noncomputable def updatePillars (maxH dt freqMultiplier ampMultiplier now : ℝ)
    (pillars : List Pillar) : List Pillar :=
  pillars.map (updatePillar maxH dt freqMultiplier ampMultiplier now)

/-- Frame inputs consumed by one `updatePillars` call. -/
structure StepInput where
  dt : ℝ
  freqMultiplier : ℝ
  ampMultiplier : ℝ
  now : ℝ

/-- Valid frame inputs: nonnegative time step and the pointer-derived
multiplier ranges from `draw` (sketch.js lines 56-58). -/
def StepInput.Valid (s : StepInput) : Prop :=
  0 ≤ s.dt ∧ 0.1 ≤ s.freqMultiplier ∧ s.freqMultiplier ≤ 3.0 ∧
    0.1 ≤ s.ampMultiplier ∧ s.ampMultiplier ≤ 1.0

/-- Run a finite sequence of `updatePillars` frames over the whole grid. -/
noncomputable def runSteps (maxH : ℝ) (steps : List StepInput)
    (pillars : List Pillar) : List Pillar :=
  steps.foldl
    (fun ps s => updatePillars maxH s.dt s.freqMultiplier s.ampMultiplier s.now ps)
    pillars

/-- State invariant of a pillar relative to the height bound `maxH`: the three
height factors lie in `[-maxH, 0]`, elapsed time is nonnegative and the
animation duration is positive (as produced by `initPillars`). -/
def PillarInv (maxH : ℝ) (p : Pillar) : Prop :=
  -maxH ≤ p.startHeightFactor ∧ p.startHeightFactor ≤ 0 ∧
  -maxH ≤ p.targetHeightFactor ∧ p.targetHeightFactor ≤ 0 ∧
  -maxH ≤ p.currentHeightFactor ∧ p.currentHeightFactor ≤ 0 ∧
  0 ≤ p.elapsedTime ∧ 0 < p.animationDuration

lemma wave1_mem (x z now : ℝ) : wave1 x z now ∈ Set.Icc (0 : ℝ) 1 := by
  have h1 := Real.neg_one_le_sin (x * 0.5 + z * 0.5 + now * 3.0)
  have h2 := Real.sin_le_one (x * 0.5 + z * 0.5 + now * 3.0)
  constructor <;> simp only [wave1] <;> nlinarith

lemma wave2_mem (x z now f : ℝ) : wave2 x z now f ∈ Set.Icc (0.25 : ℝ) 0.75 := by
  have h1 := Real.neg_one_le_sin (x * 1.5 * f - z * 1.2 * f + now * 8.0)
  have h2 := Real.sin_le_one (x * 1.5 * f - z * 1.2 * f + now * 8.0)
  constructor <;> simp only [wave2] <;> nlinarith

lemma wave3_mem (z now a : ℝ) (ha0 : 0.1 ≤ a) (ha1 : a ≤ 1.0) :
    wave3 z now a ∈ Set.Icc (0.2 : ℝ) 0.8 := by
  have h1 := Real.neg_one_le_cos (z * 0.7 + now * 5.0)
  have h2 := Real.cos_le_one (z * 0.7 + now * 5.0)
  constructor <;> simp only [wave3] <;> nlinarith

lemma combinedWave_mem (x z now f a : ℝ) (ha0 : 0.1 ≤ a) (ha1 : a ≤ 1.0) :
    combinedWave x z now f a ∈ Set.Icc (0 : ℝ) 1 := by
  have h1 := wave1_mem x z now
  have h2 := wave2_mem x z now f
  have h3 := wave3_mem z now a ha0 ha1
  simp only [Set.mem_Icc] at h1 h2 h3 ⊢
  constructor <;> simp only [combinedWave] <;> nlinarith [h1.1, h1.2, h2.1, h2.2, h3.1, h3.2]

lemma target_mem (maxH x z now f a : ℝ) (hH : 0 ≤ maxH)
    (ha0 : 0.1 ≤ a) (ha1 : a ≤ 1.0) :
    -maxH ≤ -combinedWave x z now f a * maxH ∧ -combinedWave x z now f a * maxH ≤ 0 := by
  have h := combinedWave_mem x z now f a ha0 ha1
  simp only [Set.mem_Icc] at h
  constructor <;> nlinarith [h.1, h.2]

lemma lerp_mem {a b s lo : ℝ} (hla : lo ≤ a) (ha : a ≤ 0) (hlb : lo ≤ b) (hb : b ≤ 0)
    (hs0 : 0 ≤ s) (hs1 : s ≤ 1) : lo ≤ a + (b - a) * s ∧ a + (b - a) * s ≤ 0 := by
  constructor <;> nlinarith

lemma updatePillar_inv {maxH : ℝ} (hH : 0 ≤ maxH) {p : Pillar} (hp : PillarInv maxH p)
    {s : StepInput} (hs : s.Valid) :
    PillarInv maxH (updatePillar maxH s.dt s.freqMultiplier s.ampMultiplier s.now p) := by
  obtain ⟨hs1, hs2, ht1, ht2, hc1, hc2, he, hd⟩ := hp
  obtain ⟨hdt, hf0, hf1, ha0, ha1⟩ := hs
  have he0 : easeInOutQuad 0.0 = 0 := by norm_num [easeInOutQuad]
  by_cases hret : (p.elapsedTime + s.dt) / p.animationDuration ≥ 1.0
  · have htar := target_mem maxH p.x p.z s.now s.freqMultiplier s.ampMultiplier hH ha0 ha1
    simp only [updatePillar, if_pos hret, PillarInv, he0, mul_zero, add_zero]
    exact ⟨ht1, ht2, htar.1, htar.2, ht1, ht2, by norm_num, hd⟩
  · push_neg at hret
    have hret1 : (p.elapsedTime + s.dt) / p.animationDuration ≤ 1 := by
      linarith
    have ht0 : 0 ≤ (p.elapsedTime + s.dt) / p.animationDuration :=
      div_nonneg (by linarith) hd.le
    have hes0 := easeInOutQuad_nonneg ht0 hret1
    have hes1 := easeInOutQuad_le_one ht0 hret1
    have hcur := lerp_mem hs1 hs2 ht1 ht2 hes0 hes1
    simp only [updatePillar, if_neg (not_le.mpr hret), PillarInv]
    exact ⟨hs1, hs2, ht1, ht2, hcur.1, hcur.2, by linarith, hd⟩

lemma updatePillars_inv {maxH : ℝ} (hH : 0 ≤ maxH) {ps : List Pillar}
    (hps : ∀ p ∈ ps, PillarInv maxH p) {s : StepInput} (hs : s.Valid) :
    ∀ p ∈ updatePillars maxH s.dt s.freqMultiplier s.ampMultiplier s.now ps,
      PillarInv maxH p := by
  intro q hq
  simp only [updatePillars, List.mem_map] at hq
  obtain ⟨p, hpmem, rfl⟩ := hq
  exact updatePillar_inv hH (hps p hpmem) hs

lemma runSteps_inv {maxH : ℝ} (hH : 0 ≤ maxH) (steps : List StepInput)
    (hsteps : ∀ s ∈ steps, s.Valid) {ps : List Pillar}
    (hps : ∀ p ∈ ps, PillarInv maxH p) :
    ∀ p ∈ runSteps maxH steps ps, PillarInv maxH p := by
  induction steps generalizing ps with
  | nil => simpa [runSteps] using hps
  | cons s rest ih =>
    have hs : s.Valid := hsteps s (List.mem_cons_self s rest)
    have hrest : ∀ u ∈ rest, u.Valid := fun u hu => hsteps u (List.mem_cons_of_mem s hu)
    simpa [runSteps, List.foldl_cons] using
      ih hrest (updatePillars_inv hH hps hs)

/-- The Y-axis rotation of `createCube` (sketch.js lines 258-262), before the
translation by the offsets: `X = c0*cosA - c2*sinA; Z = c0*sinA + c2*cosA`. -/
noncomputable def rotateY (angle : ℝ) (c : V3) : V3 :=
  (c.x * Real.cos angle - c.z * Real.sin angle,
   c.y,
   c.x * Real.sin angle + c.z * Real.cos angle)

/-- The unnormalized cross product `(Nx, Ny, Nz)` of `computeNormal`
(sketch.js lines 223-228): cross of the two edge vectors `U`, `V` from `p1`. -/
def crossOf (p1 p2 p3 : V3) : V3 :=
  let U : V3 := (p2.x - p1.x, p2.y - p1.y, p2.z - p1.z)
  let V : V3 := (p3.x - p1.x, p3.y - p1.y, p3.z - p1.z)
  (U.y * V.z - U.z * V.y, U.z * V.x - U.x * V.z, U.x * V.y - U.y * V.x)

/-- `len` of `computeNormal` (sketch.js line 230). -/
noncomputable def normalLength (p1 p2 p3 : V3) : ℝ :=
  let N := crossOf p1 p2 p3
  Real.sqrt (N.x * N.x + N.y * N.y + N.z * N.z)

/-- `computeNormal` (sketch.js lines 221-238): cross product of the two edge
vectors from `p1`, normalized only when its length is strictly positive. -/
noncomputable def computeNormal (p1 p2 p3 : V3) : V3 :=
  let N := crossOf p1 p2 p3
  let len := normalLength p1 p2 p3
  if len > 0.0 then (N.x / len, N.y / len, N.z / len) else N

/-- The 8 transformed cube corners of `createCube` (sketch.js lines 246-264):
unit cube with half-extent 0.5, the top 4 corners Y-scaled by `heightFactor`,
rotated about Y and translated by the offsets. -/
noncomputable def createCubeCorners (xOffset yOffset zOffset heightFactor angle : ℝ) :
    List V3 :=
  let halfSize : ℝ := 1.0 / 2
  let corners : List V3 := [
    (-halfSize, -halfSize, -halfSize),
    ( halfSize, -halfSize, -halfSize),
    ( halfSize,  halfSize * heightFactor, -halfSize),
    (-halfSize,  halfSize * heightFactor, -halfSize),
    (-halfSize, -halfSize,  halfSize),
    ( halfSize, -halfSize,  halfSize),
    ( halfSize,  halfSize * heightFactor,  halfSize),
    (-halfSize,  halfSize * heightFactor,  halfSize)]
  corners.map (fun c =>
    let r := rotateY angle c
    (r.x + xOffset, r.y + yOffset, r.z + zOffset))

/-- The fixed face index table of `createCube` (sketch.js lines 267-274). -/
def cubeFaces : List (ℕ × ℕ × ℕ × ℕ) :=
  [(0, 1, 2, 3), (4, 5, 6, 7), (0, 1, 5, 4), (2, 3, 7, 6), (0, 3, 7, 4), (1, 2, 6, 5)]

/-- One vertex record: position and normal (the 6 floats of sketch.js). -/
abbrev Vtx : Type := V3 × V3

/-- `makeFace` (sketch.js lines 287-299): two triangles `(v1,v2,v3)` and
`(v1,v3,v4)`, every vertex tagged with the flat face normal `n`. -/
def makeFace (corners : List V3) (v1 v2 v3 v4 : ℕ) (n : V3) : List Vtx :=
  [(corners.getD v1 V3.zero, n), (corners.getD v2 V3.zero, n), (corners.getD v3 V3.zero, n),
   (corners.getD v1 V3.zero, n), (corners.getD v3 V3.zero, n), (corners.getD v4 V3.zero, n)]

/-- `createCube` (sketch.js lines 240-285): for each face of the index table,
compute the face normal from the first three corners and emit the two
triangles of the face. -/
noncomputable def createCube (xOffset yOffset zOffset heightFactor angle : ℝ) :
    List Vtx :=
  let corners := createCubeCorners xOffset yOffset zOffset heightFactor angle
  cubeFaces.flatMap (fun f =>
    let n := computeNormal (corners.getD f.1 V3.zero) (corners.getD f.2.1 V3.zero)
      (corners.getD f.2.2.1 V3.zero)
    makeFace corners f.1 f.2.1 f.2.2.1 f.2.2.2 n)

/-- The 6 face normals computed by the `createCube` loop, in face-table order. -/
noncomputable def cubeFaceNormals (xOffset yOffset zOffset heightFactor angle : ℝ) :
    List V3 :=
  let corners := createCubeCorners xOffset yOffset zOffset heightFactor angle
  cubeFaces.map (fun f =>
    computeNormal (corners.getD f.1 V3.zero) (corners.getD f.2.1 V3.zero)
      (corners.getD f.2.2.1 V3.zero))

lemma createCube_length (xOffset yOffset zOffset heightFactor angle : ℝ) :
    (createCube xOffset yOffset zOffset heightFactor angle).length = 36 := by
  simp [createCube, cubeFaces, makeFace, List.flatMap]

lemma cubeFaceNormals_unit :
    cubeFaceNormals 0 0 0 1.0 0 =
      [((0 : ℝ), (0 : ℝ), (1 : ℝ)), ((0 : ℝ), (0 : ℝ), (1 : ℝ)),
       ((0 : ℝ), (-1 : ℝ), (0 : ℝ)), ((0 : ℝ), (1 : ℝ), (0 : ℝ)),
       ((1 : ℝ), (0 : ℝ), (0 : ℝ)), ((1 : ℝ), (0 : ℝ), (0 : ℝ))] := by
  simp only [cubeFaceNormals, createCubeCorners, cubeFaces, rotateY, computeNormal,
    crossOf, normalLength, Real.cos_zero, Real.sin_zero, V3.x, V3.y, V3.z,
    List.map_cons, List.map_nil, List.getD]
  norm_num [V3.zero, Real.sqrt_one]

lemma rotateY_roundTrip (theta : ℝ) (p : V3) :
    rotateY (-theta) (rotateY theta p) = p := by
  obtain ⟨x, y, z⟩ := p
  have h := Real.sin_sq_add_cos_sq theta
  simp only [rotateY, V3.x, V3.y, V3.z, Real.cos_neg, Real.sin_neg, Prod.mk.injEq]
  refine ⟨by linear_combination x * h, trivial, by linear_combination z * h⟩

lemma eq_zero_of_len_eq_zero {v : V3}
    (h : Real.sqrt (v.x * v.x + v.y * v.y + v.z * v.z) = 0) : v = V3.zero := by
  obtain ⟨a, b, c⟩ := v
  simp only [V3.x, V3.y, V3.z] at h
  have hnn : 0 ≤ a * a + b * b + c * c := by
    nlinarith [mul_self_nonneg a, mul_self_nonneg b, mul_self_nonneg c]
  have hsum : a * a + b * b + c * c = 0 := (Real.sqrt_eq_zero hnn).mp h
  have hA : a = 0 := by nlinarith [mul_self_nonneg a, mul_self_nonneg b, mul_self_nonneg c]
  have hB : b = 0 := by nlinarith [mul_self_nonneg a, mul_self_nonneg b, mul_self_nonneg c]
  have hC : c = 0 := by nlinarith [mul_self_nonneg a, mul_self_nonneg b, mul_self_nonneg c]
  simp [V3.zero, hA, hB, hC]

lemma computeNormal_degenerate {p1 p2 p3 : V3} (h : normalLength p1 p2 p3 = 0) :
    computeNormal p1 p2 p3 = V3.zero := by
  have hcross : crossOf p1 p2 p3 = V3.zero := by
    apply eq_zero_of_len_eq_zero
    simpa only [normalLength] using h
  simp only [computeNormal, h]
  norm_num [hcross]

/-- GLSL `clamp(x, lo, hi)`. -/
noncomputable def glslClamp (x lo hi : ℝ) : ℝ := min (max x lo) hi

/-- GLSL `smoothstep(edge0, edge1, x)`:
`t = clamp((x - edge0) / (edge1 - edge0), 0, 1); t * t * (3 - 2 * t)`. -/
noncomputable def smoothstep (edge0 edge1 x : ℝ) : ℝ :=
  let t := glslClamp ((x - edge0) / (edge1 - edge0)) 0.0 1.0
  t * t * (3.0 - 2.0 * t)

/-- GLSL `mix(a, b, s) = a * (1 - s) + b * s` on scalars. -/
noncomputable def mixR (a b s : ℝ) : ℝ := a * (1 - s) + b * s

/-- GLSL `mix` on vec3, componentwise. -/
noncomputable def mixV3 (a b : V3) (s : ℝ) : V3 :=
  (mixR a.x b.x s, mixR a.y b.y s, mixR a.z b.z s)

/-- The palette blend of fragment.frag lines 89-102: starting from `u_color[0]`,
nine sequential smoothstep mixes toward `u_color[i+1]` with edges
`zero + color_gap * i`, then the wrap-around mix back toward `u_color[0]` with
edges `color_gap * 4` and `color_gap * 5`. Uniform array slots that the
JavaScript side never sets (indices 5-8) and the out-of-range read `u_color[9]`
are zero, modeled by the `getD` default. -/
noncomputable def paletteBlend (u_color : List V3) (x : ℝ) : V3 :=
  let zero : ℝ := 0.0
  let color_num : ℝ := 5.0
  let color_gap : ℝ := 1.0 / color_num
  let base0 := u_color.getD 0 V3.zero
  let afterLoop := (List.range 9).foldl
    (fun b i => mixV3 b (u_color.getD (i + 1) V3.zero)
      (smoothstep (zero + color_gap * (i : ℝ)) (zero + color_gap * ((i : ℝ) + 1)) x)) base0
  mixV3 afterLoop base0 (smoothstep (zero + color_gap * 4.0) (zero + color_gap * 5.0) x)

/-- The five palette colors uploaded by `setShaderUniforms` (sketch.js
lines 156-162), converted from 0-255 RGB by `rgbToFloat`. -/
noncomputable def sketchPalette : List V3 :=
  [((255 / 255 : ℝ), (0 / 255 : ℝ), (0 / 255 : ℝ)),
   ((255 / 255 : ℝ), (242 / 255 : ℝ), (0 / 255 : ℝ)),
   ((0 / 255 : ℝ), (255 / 255 : ℝ), (8 / 255 : ℝ)),
   ((0 / 255 : ℝ), (255 / 255 : ℝ), (238 / 255 : ℝ)),
   ((111 / 255 : ℝ), (0 / 255 : ℝ), (255 / 255 : ℝ))]

lemma smoothstep_of_le {edge0 edge1 x : ℝ} (hx : x ≤ edge0) (he : edge0 < edge1) :
    smoothstep edge0 edge1 x = 0 := by
  have hq : (x - edge0) / (edge1 - edge0) ≤ 0 :=
    div_nonpos_of_nonpos_of_nonneg (by linarith) (by linarith)
  have ht : glslClamp ((x - edge0) / (edge1 - edge0)) 0.0 1.0 = 0 := by
    unfold glslClamp
    rw [max_eq_right (le_of_le_of_eq hq (by norm_num))]
    norm_num
  simp only [smoothstep, ht]
  ring

lemma glslClamp01_nonneg (q : ℝ) : 0 ≤ glslClamp q 0.0 1.0 := by
  unfold glslClamp
  exact le_min (le_max_of_le_right (by norm_num)) (by norm_num)

lemma glslClamp01_le_one (q : ℝ) : glslClamp q 0.0 1.0 ≤ 1 := by
  unfold glslClamp
  exact le_of_le_of_eq (min_le_right _ _) (by norm_num)

lemma smoothstep_mem {edge0 edge1 x : ℝ} :
    0 ≤ smoothstep edge0 edge1 x ∧ smoothstep edge0 edge1 x ≤ 1 := by
  have h0 := glslClamp01_nonneg ((x - edge0) / (edge1 - edge0))
  have h1 := glslClamp01_le_one ((x - edge0) / (edge1 - edge0))
  have hsq := sq_nonneg (1 - glslClamp ((x - edge0) / (edge1 - edge0)) 0.0 1.0)
  constructor <;> simp only [smoothstep] <;> nlinarith [h0, h1, hsq]

/-- Componentwise membership of a vec3 in the unit box. -/
def InBox01 (v : V3) : Prop := 0 ≤ v.x ∧ v.x ≤ 1 ∧ 0 ≤ v.y ∧ v.y ≤ 1 ∧ 0 ≤ v.z ∧ v.z ≤ 1

lemma mixR_mem {a b s : ℝ} (ha0 : 0 ≤ a) (ha1 : a ≤ 1) (hb0 : 0 ≤ b) (hb1 : b ≤ 1)
    (hs0 : 0 ≤ s) (hs1 : s ≤ 1) : 0 ≤ mixR a b s ∧ mixR a b s ≤ 1 := by
  constructor <;> simp only [mixR] <;> nlinarith

lemma mixV3_mem {a b : V3} {s : ℝ} (ha : InBox01 a) (hb : InBox01 b)
    (hs0 : 0 ≤ s) (hs1 : s ≤ 1) : InBox01 (mixV3 a b s) := by
  obtain ⟨ha1, ha2, ha3, ha4, ha5, ha6⟩ := ha
  obtain ⟨hb1, hb2, hb3, hb4, hb5, hb6⟩ := hb
  have hx := mixR_mem ha1 ha2 hb1 hb2 hs0 hs1
  have hy := mixR_mem ha3 ha4 hb3 hb4 hs0 hs1
  have hz := mixR_mem ha5 ha6 hb5 hb6 hs0 hs1
  exact ⟨hx.1, hx.2, hy.1, hy.2, hz.1, hz.2⟩

lemma zero_inBox : InBox01 V3.zero := by
  refine ⟨?_, ?_, ?_, ?_, ?_, ?_⟩ <;> norm_num [V3.zero, V3.x, V3.y, V3.z]

lemma getD_inBox {colors : List V3} (hc : ∀ c ∈ colors, InBox01 c) (i : ℕ) :
    InBox01 (colors.getD i V3.zero) := by
  by_cases h : i < colors.length
  · rw [List.getD_eq_getElem colors V3.zero h]
    exact hc _ (List.getElem_mem h)
  · rw [List.getD_eq_default colors V3.zero (not_lt.mp h)]
    exact zero_inBox

lemma blendLoop_inBox {colors : List V3} (hc : ∀ c ∈ colors, InBox01 c)
    (x : ℝ) (l : List ℕ) {b : V3} (hb : InBox01 b) :
    InBox01 (l.foldl
      (fun b i => mixV3 b (colors.getD (i + 1) V3.zero)
        (smoothstep (0.0 + 1.0 / 5.0 * (i : ℝ)) (0.0 + 1.0 / 5.0 * ((i : ℝ) + 1)) x)) b) := by
  induction l generalizing b with
  | nil => simpa using hb
  | cons i rest ih =>
    simp only [List.foldl_cons]
    exact ih (mixV3_mem hb (getD_inBox hc (i + 1)) smoothstep_mem.1 smoothstep_mem.2)

lemma mixV3_zero (a b : V3) : mixV3 a b 0 = a := by
  obtain ⟨ax, ay, az⟩ := a
  simp [mixV3, mixR, V3.x, V3.y, V3.z]

lemma smoothstep_edge_zero (i : ℕ) :
    smoothstep (0.0 + 1.0 / 5.0 * (i : ℝ)) (0.0 + 1.0 / 5.0 * ((i : ℝ) + 1)) 0 = 0 := by
  refine smoothstep_of_le ?_ ?_ <;> norm_num

lemma blendLoop_at_zero (colors : List V3) (l : List ℕ) (b : V3) :
    l.foldl
      (fun b i => mixV3 b (colors.getD (i + 1) V3.zero)
        (smoothstep (0.0 + 1.0 / 5.0 * (i : ℝ)) (0.0 + 1.0 / 5.0 * ((i : ℝ) + 1)) 0)) b = b := by
  induction l generalizing b with
  | nil => rfl
  | cons i rest ih =>
    simp only [List.foldl_cons, smoothstep_edge_zero i, mixV3_zero]
    exact ih b

lemma paletteBlend_at_zero (colors : List V3) :
    paletteBlend colors 0 = colors.getD 0 V3.zero := by
  simp only [paletteBlend]
  rw [blendLoop_at_zero]
  have hs : smoothstep (0.0 + 1.0 / 5.0 * 4.0) (0.0 + 1.0 / 5.0 * 5.0) 0 = 0 := by
    refine smoothstep_of_le ?_ ?_ <;> norm_num
  rw [hs, mixV3_zero]

lemma smoothstep_of_mem {e0 e1 x : ℝ} (h0 : e0 ≤ x) (h1 : x ≤ e1) (he : e0 < e1) :
    smoothstep e0 e1 x =
      ((x - e0) / (e1 - e0)) * ((x - e0) / (e1 - e0)) * (3 - 2 * ((x - e0) / (e1 - e0))) := by
  have hq0 : 0 ≤ (x - e0) / (e1 - e0) := div_nonneg (by linarith) (by linarith)
  have hq1 : (x - e0) / (e1 - e0) ≤ 1 := by
    rw [div_le_one (by linarith)]
    linarith
  unfold smoothstep glslClamp
  rw [max_eq_left (le_trans (by norm_num) hq0), min_eq_left (le_trans hq1 (by norm_num))]
  norm_num

lemma wrap_smoothstep_value :
    smoothstep (0.0 + 1.0 / 5.0 * 4.0) (0.0 + 1.0 / 5.0 * 5.0) 0.999 =
      3999701 / 4000000 := by
  rw [smoothstep_of_mem (by norm_num) (by norm_num) (by norm_num)]
  norm_num

lemma paletteBlend_wrap_close {colors : List V3} (hc : ∀ c ∈ colors, InBox01 c) :
    |(paletteBlend colors 0.999).x - (colors.getD 0 V3.zero).x| ≤ 1 / 1000 ∧
    |(paletteBlend colors 0.999).y - (colors.getD 0 V3.zero).y| ≤ 1 / 1000 ∧
    |(paletteBlend colors 0.999).z - (colors.getD 0 V3.zero).z| ≤ 1 / 1000 := by
  have hb0 : InBox01 (colors.getD 0 V3.zero) := getD_inBox hc 0
  have hloop := blendLoop_inBox hc 0.999 (List.range 9) hb0
  have key : ∀ a b : ℝ, 0 ≤ a → a ≤ 1 → 0 ≤ b → b ≤ 1 →
      |mixR a b (3999701 / 4000000) - b| ≤ 1 / 1000 := by
    intro a b ha0 ha1 hb0' hb1'
    have h1 : mixR a b (3999701 / 4000000 : ℝ) - b =
        (1 - 3999701 / 4000000) * (a - b) := by
      unfold mixR
      ring
    rw [h1, abs_mul, abs_of_nonneg (by norm_num : (0 : ℝ) ≤ 1 - 3999701 / 4000000)]
    have h3 : |a - b| ≤ 1 := abs_le.mpr ⟨by linarith, by linarith⟩
    nlinarith [abs_nonneg (a - b)]
  simp only [paletteBlend, wrap_smoothstep_value]
  obtain ⟨hl1, hl2, hl3, hl4, hl5, hl6⟩ := hloop
  obtain ⟨hb1, hb2, hb3, hb4, hb5, hb6⟩ := hb0
  exact ⟨key _ _ hl1 hl2 hb1 hb2, key _ _ hl3 hl4 hb3 hb4, key _ _ hl5 hl6 hb5 hb6⟩

/-- The `NdotV`-style clamp of fragment.frag (`max(dot(N,V), 0.0)`). -/
def clampedDot (n v : V3) : ℝ := max (dotV3 n v) 0.0

/-- The specular denominator of fragment.frag line 138:
`4.0 * NdotV * NdotL + 0.001`. -/
def specularDenominator (NdotV NdotL : ℝ) : ℝ := 4.0 * NdotV * NdotL + 0.001

/-- The GGX normal-distribution denominator of fragment.frag lines 121-122:
`denom = NdotH*NdotH*(alpha2 - 1.0) + 1.0; D = alpha2 / (PI * denom * denom)`,
with `alpha = roughness*roughness` and `alpha2 = alpha*alpha`. -/
noncomputable def ggxDistributionDenom (roughness NdotH : ℝ) : ℝ :=
  let alpha := roughness * roughness
  let alpha2 := alpha * alpha
  let denom := NdotH * NdotH * (alpha2 - 1.0) + 1.0
  Real.pi * denom * denom

/-- The `uRoughness` uniform value uploaded by `setShaderUniforms`
(sketch.js line 149). -/
def uRoughness : ℝ := 0.1

lemma specularDenominator_ge (n v s : V3) :
    0.001 ≤ specularDenominator (clampedDot n v) (clampedDot n s) := by
  have hv : (0 : ℝ) ≤ clampedDot n v := le_max_of_le_right (by norm_num)
  have hs : (0 : ℝ) ≤ clampedDot n s := le_max_of_le_right (by norm_num)
  simp only [specularDenominator]
  nlinarith

lemma dot_le_one_of_unit {n h : V3} (hn : dotV3 n n = 1) (hh : dotV3 h h = 1) :
    dotV3 n h ≤ 1 := by
  obtain ⟨n1, n2, n3⟩ := n
  obtain ⟨h1, h2, h3⟩ := h
  simp only [dotV3, V3.x, V3.y, V3.z] at hn hh ⊢
  nlinarith [sq_nonneg (n1 - h1), sq_nonneg (n2 - h2), sq_nonneg (n3 - h3)]

lemma ggxDistributionDenom_pos {n h : V3} (hn : dotV3 n n = 1) (hh : dotV3 h h = 1) :
    0 < ggxDistributionDenom uRoughness (clampedDot n h) := by
  have h0 : (0 : ℝ) ≤ clampedDot n h := le_max_of_le_right (by norm_num)
  have h1 : clampedDot n h ≤ 1 := by
    have := dot_le_one_of_unit hn hh
    simp only [clampedDot]
    rw [max_le_iff]
    constructor <;> [exact this; norm_num]
  simp only [ggxDistributionDenom, uRoughness]
  have hpi := Real.pi_pos
  have hdpos :
      0 < clampedDot n h * clampedDot n h * (0.1 * 0.1 * (0.1 * 0.1) - 1.0) + 1.0 := by
    nlinarith
  exact mul_pos (mul_pos hpi hdpos) hdpos

/-- Two-argument arctangent in the convention of GLSL `atan(y, x)`, with
range `(-PI, PI]` (value at the undefined origin taken as 0). -/
noncomputable def atan2 (y x : ℝ) : ℝ :=
  if 0 < x then Real.arctan (y / x)
  else if x < 0 then
    (if 0 ≤ y then Real.arctan (y / x) + Real.pi else Real.arctan (y / x) - Real.pi)
  else
    (if 0 < y then Real.pi / 2 else if y < 0 then -(Real.pi / 2) else 0)

/-- `directionToUV` (fragment.frag lines 57-63): equirectangular UV from a
direction; `theta = acos(clamp(dir.y,-1,1))`, `phi = atan(dir.x, dir.z) + PI`,
`u = phi / (2*PI)`, `v = theta / PI`. -/
noncomputable def directionToUV (dir : V3) : ℝ × ℝ :=
  let theta := Real.arccos (glslClamp dir.y (-1.0) 1.0)
  let phi := atan2 dir.x dir.z + Real.pi
  let u := phi / (2.0 * Real.pi)
  let v := theta / Real.pi
  (u, v)

lemma atan2_mem (y x : ℝ) : -Real.pi < atan2 y x ∧ atan2 y x ≤ Real.pi := by
  have hpi := Real.pi_pos
  have hlt := Real.arctan_lt_pi_div_two (y / x)
  have hgt := Real.neg_pi_div_two_lt_arctan (y / x)
  unfold atan2
  by_cases hx : 0 < x
  · rw [if_pos hx]
    constructor <;> linarith
  · rw [if_neg hx]
    by_cases hx2 : x < 0
    · rw [if_pos hx2]
      by_cases hy : 0 ≤ y
      · rw [if_pos hy]
        have hq : y / x ≤ 0 := div_nonpos_of_nonneg_of_nonpos hy hx2.le
        have harc : Real.arctan (y / x) ≤ 0 := by
          have := Real.arctan_strictMono.monotone hq
          rwa [Real.arctan_zero] at this
        constructor <;> linarith
      · rw [if_neg hy]
        push_neg at hy
        have hq : 0 < y / x := by
          rw [div_pos_iff]
          right
          exact ⟨hy, hx2⟩
        have harc : 0 < Real.arctan (y / x) := by
          have := Real.arctan_strictMono hq
          rwa [Real.arctan_zero] at this
        constructor <;> linarith
    · rw [if_neg hx2]
      by_cases hy : 0 < y
      · rw [if_pos hy]
        constructor <;> linarith
      · rw [if_neg hy]
        by_cases hy2 : y < 0
        · rw [if_pos hy2]
          constructor <;> linarith
        · rw [if_neg hy2]
          constructor <;> linarith

lemma directionToUV_mem (dir : V3) :
    0 ≤ (directionToUV dir).1 ∧ (directionToUV dir).1 ≤ 1 ∧
    0 ≤ (directionToUV dir).2 ∧ (directionToUV dir).2 ≤ 1 := by
  have hpi := Real.pi_pos
  have ha := atan2_mem dir.x dir.z
  have hc0 := Real.arccos_nonneg (glslClamp dir.y (-1.0) 1.0)
  have hc1 := Real.arccos_le_pi (glslClamp dir.y (-1.0) 1.0)
  simp only [directionToUV]
  refine ⟨?_, ?_, ?_, ?_⟩
  · apply div_nonneg (by linarith [ha.1]) (by linarith)
  · rw [div_le_one (by linarith)]
    linarith [ha.2]
  · exact div_nonneg hc0 hpi.le
  · rw [div_le_one hpi]
    linarith

lemma updatePillar_retarget {maxH dt f a now : ℝ} {p : Pillar}
    (h : (p.elapsedTime + dt) / p.animationDuration ≥ 1.0) :
    (updatePillar maxH dt f a now p).elapsedTime = 0 ∧
    (updatePillar maxH dt f a now p).currentHeightFactor =
      (updatePillar maxH dt f a now p).startHeightFactor ∧
    (updatePillar maxH dt f a now p).startHeightFactor = p.targetHeightFactor := by
  have he0 : easeInOutQuad 0.0 = 0 := by norm_num [easeInOutQuad]
  simp only [updatePillar, if_pos h, he0]
  norm_num

lemma updatePillar_dt_zero {maxH f a now : ℝ} {p : Pillar}
    (hlt : p.elapsedTime < p.animationDuration) (hd : 0 < p.animationDuration) :
    (updatePillar maxH 0 f a now p).elapsedTime = p.elapsedTime ∧
    (updatePillar maxH 0 f a now p).animationDuration = p.animationDuration := by
  have ht : ¬(p.elapsedTime / p.animationDuration ≥ 1.0) := by
    rw [ge_iff_le, not_le]
    have h10 : (1.0 : ℝ) = 1 := by norm_num
    rw [h10, div_lt_one hd]
    linarith
  simp only [updatePillar, if_neg ht, add_zero]
  exact ⟨trivial, trivial⟩

lemma updatePillar_elapsed_cases (maxH dt f a now : ℝ) (p : Pillar) :
    (updatePillar maxH dt f a now p).elapsedTime = p.elapsedTime + dt ∨
    (updatePillar maxH dt f a now p).elapsedTime = 0 := by
  by_cases h : (p.elapsedTime + dt) / p.animationDuration ≥ 1.0
  · right
    simp only [updatePillar, if_pos h]
    norm_num
  · left
    simp only [updatePillar, if_neg h]

/-- Claim C1, counterexample: for the cube built with center (0,0), height
factor 1.0 and rotation angle 0, the face normals computed from the fixed face
index table are NOT six distinct vectors: the first two faces of the table
(the z = -0.5 and z = +0.5 quads) both receive the normal (0,0,1), and the
normal of the first face is the inward vector (0,0,1) rather than the outward
(0,0,-1), so the claim as stated is false. -/
theorem spec_C1_counterexample :
    (cubeFaceNormals 0 0 0 1.0 0).getD 0 V3.zero =
      (cubeFaceNormals 0 0 0 1.0 0).getD 1 V3.zero ∧
    (cubeFaceNormals 0 0 0 1.0 0).getD 0 V3.zero ≠ ((0 : ℝ), (0 : ℝ), (-1 : ℝ)) ∧
    ¬(cubeFaceNormals 0 0 0 1.0 0).Nodup := by
  rw [cubeFaceNormals_unit]
  refine ⟨by norm_num [List.getD], by norm_num [List.getD], ?_⟩
  intro h
  exact (List.nodup_cons.mp h).1 (List.mem_cons_self _ _)

/-- Claim C1, amended: createCube with center (0,0), height factor 1.0 and
rotation angle 0 outputs exactly 36 vertex records (12 triangles), and the 6
face normals computed from the fixed face index table are, in table order,
(0,0,1), (0,0,1), (0,-1,0), (0,1,0), (1,0,0), (1,0,0): each is an axis-aligned
unit vector, but only 4 values are distinct, and the back (z = -0.5) and left
(x = -0.5) faces receive inward rather than outward normals. -/
theorem spec_C1_amended :
    (createCube 0 0 0 1.0 0).length = 36 ∧
    cubeFaceNormals 0 0 0 1.0 0 =
      [((0 : ℝ), (0 : ℝ), (1 : ℝ)), ((0 : ℝ), (0 : ℝ), (1 : ℝ)),
       ((0 : ℝ), (-1 : ℝ), (0 : ℝ)), ((0 : ℝ), (1 : ℝ), (0 : ℝ)),
       ((1 : ℝ), (0 : ℝ), (0 : ℝ)), ((1 : ℝ), (0 : ℝ), (0 : ℝ))] :=
  ⟨createCube_length 0 0 0 1.0 0, cubeFaceNormals_unit⟩

/-- Claim C2: for every pillar position (x,z), every time now, every
freqMultiplier in [0.1, 3.0] and every ampMultiplier in [0.1, 1.0], the
combined wave value (wave1+wave2+wave3)/3 computed at retarget lies in [0,1],
and therefore the new targetHeightFactor = -combined * maxHeight lies in
[-maxHeight, 0]. -/
theorem spec_C2 (x z now freq amp : ℝ) (hf0 : 0.1 ≤ freq) (hf1 : freq ≤ 3.0)
    (ha0 : 0.1 ≤ amp) (ha1 : amp ≤ 1.0) :
    0 ≤ combinedWave x z now freq amp ∧ combinedWave x z now freq amp ≤ 1 ∧
    -maxHeight ≤ -combinedWave x z now freq amp * maxHeight ∧
    -combinedWave x z now freq amp * maxHeight ≤ 0 := by
  have hmem := combinedWave_mem x z now freq amp ha0 ha1
  simp only [Set.mem_Icc] at hmem
  have htar := target_mem maxHeight x z now freq amp (by norm_num [maxHeight]) ha0 ha1
  exact ⟨hmem.1, hmem.2, htar.1, htar.2⟩

/-- Witness for C2 at the concrete input x = 0, z = 0, now = 0, freq = 1,
amp = 1. -/
theorem spec_C2_witness :
    (0.1 : ℝ) ≤ 1 ∧ (1 : ℝ) ≤ 3.0 ∧
    (0 ≤ combinedWave 0 0 0 1 1 ∧ combinedWave 0 0 0 1 1 ≤ 1 ∧
     -maxHeight ≤ -combinedWave 0 0 0 1 1 * maxHeight ∧
     -combinedWave 0 0 0 1 1 * maxHeight ≤ 0) :=
  ⟨by norm_num, by norm_num,
   spec_C2 0 0 0 1 1 (by norm_num) (by norm_num) (by norm_num) (by norm_num)⟩

/-- Claim C3: starting from any grid of pillar states satisfying the initPillars
invariant (all three height factors in [-maxH, 0], nonnegative elapsed time,
positive animation duration), after every finite sequence of updatePillars
steps with dt at least 0, freqMultiplier in [0.1, 3.0] and ampMultiplier in
[0.1, 1.0], every pillar of the grid keeps currentHeightFactor in [-maxH, 0];
instantiated at maxH = 10 and 10 steps of dt = 0.05 by the witness. -/
theorem spec_C3 (maxH : ℝ) (hH : 0 ≤ maxH) (pillars : List Pillar)
    (hinit : ∀ p ∈ pillars, PillarInv maxH p) (steps : List StepInput)
    (hsteps : ∀ s ∈ steps, s.Valid) :
    ∀ p ∈ runSteps maxH steps pillars,
      -maxH ≤ p.currentHeightFactor ∧ p.currentHeightFactor ≤ 0 := by
  intro p hp
  have h := runSteps_inv hH steps hsteps hinit p hp
  exact ⟨h.2.2.2.2.1, h.2.2.2.2.2.1⟩

/-- Witness for C3: a 2x2 grid with concrete heights inside [-10, 0],
maxH = 10, and 10 steps of dt = 0.05 with freqMultiplier = ampMultiplier = 1. -/
theorem spec_C3_witness :
    (∀ p ∈ ([⟨0, 0, -5, -3, -5, 0, 0.2⟩, ⟨0, 1, -2, -9, -2, 0, 0.25⟩,
             ⟨1, 0, -10, -1, -10, 0, 0.3⟩, ⟨1, 1, -4, -4, -4, 0, 0.15⟩] : List Pillar),
       PillarInv 10 p) ∧
    (∀ s ∈ List.replicate 10 (⟨0.05, 1.0, 1.0, 0⟩ : StepInput), s.Valid) ∧
    (∀ p ∈ runSteps 10 (List.replicate 10 (⟨0.05, 1.0, 1.0, 0⟩ : StepInput))
        ([⟨0, 0, -5, -3, -5, 0, 0.2⟩, ⟨0, 1, -2, -9, -2, 0, 0.25⟩,
          ⟨1, 0, -10, -1, -10, 0, 0.3⟩, ⟨1, 1, -4, -4, -4, 0, 0.15⟩] : List Pillar),
       -10 ≤ p.currentHeightFactor ∧ p.currentHeightFactor ≤ 0) := by
  have hinit : ∀ p ∈ ([⟨0, 0, -5, -3, -5, 0, 0.2⟩, ⟨0, 1, -2, -9, -2, 0, 0.25⟩,
      ⟨1, 0, -10, -1, -10, 0, 0.3⟩, ⟨1, 1, -4, -4, -4, 0, 0.15⟩] : List Pillar),
      PillarInv 10 p := by
    intro p hp
    fin_cases hp <;> norm_num [PillarInv]
  have hsteps : ∀ s ∈ List.replicate 10 (⟨0.05, 1.0, 1.0, 0⟩ : StepInput), s.Valid := by
    intro s hs
    rw [List.eq_of_mem_replicate hs]
    norm_num [StepInput.Valid]
  exact ⟨hinit, hsteps, spec_C3 10 (by norm_num) _ hinit _ hsteps⟩

/-- Claim C4: easeInOutQuad maps 0 to 0, 1 to 1 and 0.5 to 0.5, and is
monotonically non-decreasing on [0, 1]. -/
theorem spec_C4 :
    easeInOutQuad 0 = 0 ∧ easeInOutQuad 1 = 1 ∧ easeInOutQuad 0.5 = 0.5 ∧
    ∀ t1 t2 : ℝ, 0 ≤ t1 → t1 ≤ t2 → t2 ≤ 1 → easeInOutQuad t1 ≤ easeInOutQuad t2 :=
  ⟨easeInOutQuad_zero, easeInOutQuad_one, easeInOutQuad_half,
   fun _ _ h0 h12 h1 => easeInOutQuad_mono h0 h12 h1⟩

/-- Witness for C4: monotonicity applied at the concrete pair 1/4 and 3/4. -/
theorem spec_C4_witness :
    (0 : ℝ) ≤ 1 / 4 ∧ (1 / 4 : ℝ) ≤ 3 / 4 ∧ (3 / 4 : ℝ) ≤ 1 ∧
    easeInOutQuad (1 / 4) ≤ easeInOutQuad (3 / 4) :=
  ⟨by norm_num, by norm_num, by norm_num,
   spec_C4.2.2.2 (1 / 4) (3 / 4) (by norm_num) (by norm_num) (by norm_num)⟩

/-- Claim C5: for every pillar and update inputs with which the accumulated
fraction (elapsedTime + dt) / animationDuration reaches or exceeds 1,
immediately after the update the elapsed time is 0 and the current height
factor equals the start height factor, which is the target height factor that
had just been reached before retargeting. -/
theorem spec_C5 (maxH dt f a now : ℝ) (p : Pillar)
    (h : (p.elapsedTime + dt) / p.animationDuration ≥ 1.0) :
    (updatePillar maxH dt f a now p).elapsedTime = 0 ∧
    (updatePillar maxH dt f a now p).currentHeightFactor =
      (updatePillar maxH dt f a now p).startHeightFactor ∧
    (updatePillar maxH dt f a now p).startHeightFactor = p.targetHeightFactor :=
  updatePillar_retarget h

/-- Witness for C5: a pillar with elapsedTime 1, animationDuration 1/2 and
dt = 0, for which the fraction is 2. -/
theorem spec_C5_witness :
    ((1 : ℝ) + 0) / (1 / 2) ≥ 1.0 ∧
    ((updatePillar 25 0 1 1 0 ⟨0, 0, -1, -2, -1, 1, 1 / 2⟩).elapsedTime = 0 ∧
     (updatePillar 25 0 1 1 0 ⟨0, 0, -1, -2, -1, 1, 1 / 2⟩).currentHeightFactor =
       (updatePillar 25 0 1 1 0 ⟨0, 0, -1, -2, -1, 1, 1 / 2⟩).startHeightFactor ∧
     (updatePillar 25 0 1 1 0 ⟨0, 0, -1, -2, -1, 1, 1 / 2⟩).startHeightFactor =
       (⟨0, 0, -1, -2, -1, 1, 1 / 2⟩ : Pillar).targetHeightFactor) :=
  ⟨by norm_num, spec_C5 25 0 1 1 0 ⟨0, 0, -1, -2, -1, 1, 1 / 2⟩ (by norm_num)⟩

/-- Claim C6: the per-pillar update tolerates any dt at least 0. With dt = 0
on a pillar state whose elapsed time is below its animation duration, the
elapsed time and the animation fraction are unchanged; and for arbitrary dt
the updated elapsed time is either the old elapsed time plus dt (no retarget)
or exactly 0 (a single retarget): the update never loops to catch up several
retargets in one call. -/
theorem spec_C6 (maxH f a now dt : ℝ) (p : Pillar) (hdt : 0 ≤ dt)
    (hlt : p.elapsedTime < p.animationDuration) (hd : 0 < p.animationDuration) :
    (updatePillar maxH 0 f a now p).elapsedTime = p.elapsedTime ∧
    (updatePillar maxH 0 f a now p).elapsedTime /
        (updatePillar maxH 0 f a now p).animationDuration =
      p.elapsedTime / p.animationDuration ∧
    ((updatePillar maxH dt f a now p).elapsedTime = p.elapsedTime + dt ∨
     (updatePillar maxH dt f a now p).elapsedTime = 0) := by
  have hz := @updatePillar_dt_zero maxH f a now p hlt hd
  exact ⟨hz.1, by rw [hz.1, hz.2], updatePillar_elapsed_cases maxH dt f a now p⟩

/-- Witness for C6: a pillar with elapsedTime 0.1 and animationDuration 0.2,
updated with dt = 0.3 (much larger than the duration). -/
theorem spec_C6_witness :
    (0 : ℝ) ≤ 0.3 ∧ (0.1 : ℝ) < 0.2 ∧ (0 : ℝ) < 0.2 ∧
    ((updatePillar 25 0 1 1 0 ⟨0, 0, -1, -2, -1, 0.1, 0.2⟩).elapsedTime = 0.1 ∧
     (updatePillar 25 0 1 1 0 ⟨0, 0, -1, -2, -1, 0.1, 0.2⟩).elapsedTime /
         (updatePillar 25 0 1 1 0 ⟨0, 0, -1, -2, -1, 0.1, 0.2⟩).animationDuration =
       (0.1 : ℝ) / 0.2 ∧
     ((updatePillar 25 0.3 1 1 0 ⟨0, 0, -1, -2, -1, 0.1, 0.2⟩).elapsedTime = 0.1 + 0.3 ∨
      (updatePillar 25 0.3 1 1 0 ⟨0, 0, -1, -2, -1, 0.1, 0.2⟩).elapsedTime = 0)) :=
  ⟨by norm_num, by norm_num, by norm_num,
   spec_C6 25 1 1 0 0.3 ⟨0, 0, -1, -2, -1, 0.1, 0.2⟩ (by norm_num) (by norm_num) (by norm_num)⟩

/-- Claim C7: in the fragment palette blend with all color entries inside the
unit box, every smoothstep transition of the loop evaluates to 0 when
panning_vUv.x = 0, the blended base color at 0 equals u_color[0] exactly, and
at panning_vUv.x = 0.999 the wrap-around mix dominates: the blended base color
is within 1/1000 of u_color[0] in every component. -/
theorem spec_C7 (colors : List V3) (hc : ∀ c ∈ colors, InBox01 c) :
    (∀ i : ℕ,
      smoothstep (0.0 + 1.0 / 5.0 * (i : ℝ)) (0.0 + 1.0 / 5.0 * ((i : ℝ) + 1)) 0 = 0) ∧
    paletteBlend colors 0 = colors.getD 0 V3.zero ∧
    |(paletteBlend colors 0.999).x - (colors.getD 0 V3.zero).x| ≤ 1 / 1000 ∧
    |(paletteBlend colors 0.999).y - (colors.getD 0 V3.zero).y| ≤ 1 / 1000 ∧
    |(paletteBlend colors 0.999).z - (colors.getD 0 V3.zero).z| ≤ 1 / 1000 := by
  have hclose := paletteBlend_wrap_close hc
  exact ⟨smoothstep_edge_zero, paletteBlend_at_zero colors,
    hclose.1, hclose.2.1, hclose.2.2⟩

/-- Witness for C7 at the palette uploaded by setShaderUniforms. -/
theorem spec_C7_witness :
    (∀ c ∈ sketchPalette, InBox01 c) ∧
    (paletteBlend sketchPalette 0 = sketchPalette.getD 0 V3.zero ∧
     |(paletteBlend sketchPalette 0.999).x - (sketchPalette.getD 0 V3.zero).x| ≤ 1 / 1000) := by
  have hc : ∀ c ∈ sketchPalette, InBox01 c := by
    intro c hcm
    fin_cases hcm <;> norm_num [InBox01, V3.x, V3.y, V3.z]
  have h := spec_C7 sketchPalette hc
  exact ⟨hc, h.2.1, h.2.2.1⟩

/-- Claim C8: the Y-axis rotation applied to the cube corners is a round-trip
identity: rotating any point by theta and then by -theta (same cos/sin formula
as createCube, before translation) gives the point back. -/
theorem spec_C8 (theta : ℝ) (p : V3) : rotateY (-theta) (rotateY theta p) = p :=
  rotateY_roundTrip theta p

/-- Claim C9: the numeric pipeline never divides by zero. computeNormal
normalizes only when the cross-product length is strictly positive and returns
the zero vector when that length is zero; the specular denominator
4 * NdotV * NdotL + 0.001 is at least 0.001 for every normal/view/light
configuration under the max clamps; and the GGX distribution denominator
PI * denom * denom is nonzero (indeed positive) for every unit normal and
half-vector at the uRoughness value 0.1 uploaded by the sketch. -/
theorem spec_C9 :
    (∀ p1 p2 p3 : V3, normalLength p1 p2 p3 = 0 → computeNormal p1 p2 p3 = V3.zero) ∧
    (∀ n v s : V3, 0.001 ≤ specularDenominator (clampedDot n v) (clampedDot n s)) ∧
    (∀ n h : V3, dotV3 n n = 1 → dotV3 h h = 1 →
      ggxDistributionDenom uRoughness (clampedDot n h) ≠ 0) :=
  ⟨fun _ _ _ h => computeNormal_degenerate h,
   fun n v s => specularDenominator_ge n v s,
   fun _ _ hn hh => (ggxDistributionDenom_pos hn hh).ne'⟩

/-- Witness for C9: the degenerate triple of three equal points, and the unit
normal and half-vector (1,0,0). -/
theorem spec_C9_witness :
    normalLength V3.zero V3.zero V3.zero = 0 ∧
    computeNormal V3.zero V3.zero V3.zero = V3.zero ∧
    dotV3 ((1 : ℝ), (0 : ℝ), (0 : ℝ)) ((1 : ℝ), (0 : ℝ), (0 : ℝ)) = 1 ∧
    ggxDistributionDenom uRoughness
      (clampedDot ((1 : ℝ), (0 : ℝ), (0 : ℝ)) ((1 : ℝ), (0 : ℝ), (0 : ℝ))) ≠ 0 := by
  have hlen : normalLength V3.zero V3.zero V3.zero = 0 := by
    norm_num [normalLength, crossOf, V3.zero, V3.x, V3.y, V3.z, Real.sqrt_zero]
  have hdot : dotV3 ((1 : ℝ), (0 : ℝ), (0 : ℝ)) ((1 : ℝ), (0 : ℝ), (0 : ℝ)) = 1 := by
    norm_num [dotV3, V3.x, V3.y, V3.z]
  exact ⟨hlen, spec_C9.1 _ _ _ hlen, hdot, spec_C9.2.2 _ _ hdot hdot⟩

/-- Claim C10: for every input direction, directionToUV returns UV coordinates
inside the unit square: both components lie in [0, 1]. -/
theorem spec_C10 (dir : V3) :
    0 ≤ (directionToUV dir).1 ∧ (directionToUV dir).1 ≤ 1 ∧
    0 ≤ (directionToUV dir).2 ∧ (directionToUV dir).2 ≤ 1 :=
  directionToUV_mem dir

end RainbowShaders
